import Mathlib

/-!
# Verification of the RootSense SDK event pipeline

A shallow embedding, in Lean 4, of the core event collection and delivery
pipeline of the RootSense Python SDK: the error/message capture paths, the
fingerprint generator, the auto-resolution tracker, the bounded event queue,
the flush path (`rootsense/collectors/error_collector.py`), and the HTTP
transport retry loop (`rootsense/transport/http_transport.py`).

Modelling conventions:
* Python dicts are association lists `List (String × α)` with first-match
  lookup; `dict.update` overwrites existing keys in place and appends new
  ones, as in CPython.
* Event field values are modelled as `String` (every field the verified
  claims inspect is a string in the source).
* `datetime.utcnow()` is modelled as a `Nat` number of seconds supplied by
  the caller; `timedelta(hours=1)` is `3600`.
* `uuid.uuid4()`, `traceback.format_exc()` and the ISO timestamp are
  nondeterministic ambient inputs, passed as explicit arguments.
* Network effects are reified: every capture/flush operation returns the
  list of `TransportCall`s it performs, in order, instead of performing I/O.
* `hashlib.sha256(...).hexdigest()` is implemented concretely (FIPS 180-4)
  over `Nat`, with machine words taken modulo `2^32`, together with the
  UTF-8 encoding `str.encode()` applies first.
-/

namespace RootSense

/-! ## Python dict operations (association lists) -/

/-- `d.get(k)` — first binding of key `k`. -/
def aget {α : Type} (d : List (String × α)) (k : String) : Option α :=
  (d.find? (fun p => p.1 == k)).map (fun p => p.2)

/-- `k in d` — whether key `k` is present. -/
def hasKey {α : Type} (d : List (String × α)) (k : String) : Bool :=
  d.any (fun p => p.1 == k)

/-- `d[k] = v` — overwrite the binding of `k` in place if present, else append. -/
def aput {α : Type} (d : List (String × α)) (k : String) (v : α) : List (String × α) :=
  if d.any (fun p => p.1 == k) then d.map (fun p => if p.1 == k then (k, v) else p)
  else d ++ [(k, v)]

/-- `del d[k]` — remove the binding of `k`. -/
def adel {α : Type} (d : List (String × α)) (k : String) : List (String × α) :=
  d.filter (fun p => !(p.1 == k))

/-- `d.update(e)` — merge `e` into `d`, keys of `e` winning. -/
def aupdate {α : Type} (d e : List (String × α)) : List (String × α) :=
  e.foldl (fun acc p => aput acc p.1 p.2) d

/-- A Python dict with string values, as used for event bodies and contexts. -/
abbrev Dict := List (String × String)

/-! ## SHA-256 (FIPS 180-4) over `Nat`, as `hashlib.sha256(...).hexdigest()` -/

def M32 : Nat := 4294967296

def add32 (a b : Nat) : Nat := (a + b) % M32

def rotr (n x : Nat) : Nat := ((x >>> n) ||| (x <<< (32 - n))) % M32

def bigSigma0 (x : Nat) : Nat := (rotr 2 x) ^^^ (rotr 13 x) ^^^ (rotr 22 x)

def bigSigma1 (x : Nat) : Nat := (rotr 6 x) ^^^ (rotr 11 x) ^^^ (rotr 25 x)

def smallSigma0 (x : Nat) : Nat := (rotr 7 x) ^^^ (rotr 18 x) ^^^ (x >>> 3)

def smallSigma1 (x : Nat) : Nat := (rotr 17 x) ^^^ (rotr 19 x) ^^^ (x >>> 10)

def chf (x y z : Nat) : Nat := (x &&& y) ^^^ ((x ^^^ 4294967295) &&& z)

def majf (x y z : Nat) : Nat := (x &&& y) ^^^ (x &&& z) ^^^ (y &&& z)

/-- The 64 SHA-256 round constants (FIPS 180-4 §4.2.2), in decimal. -/
def shaK : List Nat := [
  1116352408, 1899447441, 3049323471, 3921009573, 961987163, 1508970993,
  2453635748, 2870763221, 3624381080, 310598401, 607225278, 1426881987,
  1925078388, 2162078206, 2614888103, 3248222580, 3835390401, 4022224774,
  264347078, 604807628, 770255983, 1249150122, 1555081692, 1996064986,
  2554220882, 2821834349, 2952996808, 3210313671, 3336571891, 3584528711,
  113926993, 338241895, 666307205, 773529912, 1294757372, 1396182291,
  1695183700, 1986661051, 2177026350, 2456956037, 2730485921, 2820302411,
  3259730800, 3345764771, 3516065817, 3600352804, 4094571909, 275423344,
  430227734, 506948616, 659060556, 883997877, 958139571, 1322822218,
  1537002063, 1747873779, 1955562222, 2024104815, 2227730452, 2361852424,
  2428436474, 2756734187, 3204031479, 3329325298]

/-- The eight 32-bit words of a SHA-256 chaining state. -/
structure Hash8 where
  a : Nat
  b : Nat
  c : Nat
  d : Nat
  e : Nat
  f : Nat
  g : Nat
  h : Nat
deriving DecidableEq

/-- The SHA-256 initial hash value (FIPS 180-4 §5.3.3), in decimal. -/
def shaInit : Hash8 :=
  ⟨1779033703, 3144134277, 1013904242, 2773480762,
   1359893119, 2600822924, 528734635, 1541459225⟩

/-- Big-endian byte expansion of `x` into `n` bytes. -/
def bytesBE : Nat → Nat → List Nat
  | 0, _ => []
  | n + 1, x => bytesBE n (x >>> 8) ++ [x &&& 255]

/-- SHA-256 padding: append `0x80`, zeros, then the 64-bit big-endian bit
length, bringing the byte length to a multiple of 64. -/
def padMessage (msg : List Nat) : List Nat :=
  let l := msg.length
  msg ++ [128] ++ List.replicate ((119 - l % 64) % 64) 0 ++ bytesBE 8 (8 * l)

/-- Pack bytes into 32-bit big-endian words. -/
def toWords : List Nat → List Nat
  | b0 :: b1 :: b2 :: b3 :: rest =>
      ((((b0 <<< 8) ||| b1) <<< 8 ||| b2) <<< 8 ||| b3) :: toWords rest
  | _ => []

def wget (w : List Nat) (i : Nat) : Nat := w.getD i 0

/-- One message-schedule extension step: append `W[i]` computed from
`W[i-2]`, `W[i-7]`, `W[i-15]`, `W[i-16]`. -/
def extendStep (w : List Nat) : List Nat :=
  let i := w.length
  w ++ [add32 (add32 (smallSigma1 (wget w (i - 2))) (wget w (i - 7)))
          (add32 (smallSigma0 (wget w (i - 15))) (wget w (i - 16)))]

/-- Extend the 16 block words to the 64-entry message schedule. -/
def extendW (w : List Nat) : List Nat :=
  (List.range 48).foldl (fun acc _ => extendStep acc) w

def compressStep (st : Hash8) (kw : Nat × Nat) : Hash8 :=
  let t1 := add32 st.h (add32 (bigSigma1 st.e) (add32 (chf st.e st.f st.g) (add32 kw.1 kw.2)))
  let t2 := add32 (bigSigma0 st.a) (majf st.a st.b st.c)
  ⟨add32 t1 t2, st.a, st.b, st.c, add32 st.d t1, st.e, st.f, st.g⟩

def processBlock (h0 : Hash8) (block : List Nat) : Hash8 :=
  let w := extendW (toWords block)
  let st := (shaK.zip w).foldl compressStep h0
  ⟨add32 h0.a st.a, add32 h0.b st.b, add32 h0.c st.c, add32 h0.d st.d,
   add32 h0.e st.e, add32 h0.f st.f, add32 h0.g st.g, add32 h0.h st.h⟩

def blocksGo : Nat → List Nat → List (List Nat)
  | 0, _ => []
  | n + 1, l => l.take 64 :: blocksGo n (l.drop 64)

/-- Split a (padded) message into 64-byte blocks. -/
def blocks64 (l : List Nat) : List (List Nat) := blocksGo (l.length / 64) l

def sha256Digest (msg : List Nat) : Hash8 :=
  (blocks64 (padMessage msg)).foldl processBlock shaInit

def hexChar (n : Nat) : Char := if n < 10 then Char.ofNat (48 + n) else Char.ofNat (87 + n)

def wordHexChars (x : Nat) : List Char :=
  (List.range 8).map (fun i => hexChar ((x >>> (28 - 4 * i)) &&& 15))

def hashToList (hs : Hash8) : List Nat := [hs.a, hs.b, hs.c, hs.d, hs.e, hs.f, hs.g, hs.h]

/-- The lowercase hex digest of SHA-256, as a list of characters. -/
def sha256HexChars (msg : List Nat) : List Char :=
  (hashToList (sha256Digest msg)).foldr (fun w acc => wordHexChars w ++ acc) []

def sha256Hexdigest (msg : List Nat) : String := String.mk (sha256HexChars msg)

/-- UTF-8 encoding of a Unicode code point, as Python's `str.encode()` uses. -/
def utf8EncodeCharNat (c : Nat) : List Nat :=
  if c < 128 then [c]
  else if c < 2048 then [192 + c / 64, 128 + c % 64]
  else if c < 65536 then [224 + c / 4096, 128 + (c / 64) % 64, 128 + c % 64]
  else [240 + c / 262144, 128 + (c / 4096) % 64, 128 + (c / 64) % 64, 128 + c % 64]

/-- `str.encode()` — UTF-8 bytes of a string. -/
def encodeUtf8 (s : String) : List Nat :=
  s.data.foldr (fun c acc => utf8EncodeCharNat c.toNat ++ acc) []

/-! ## Configuration and exceptions -/

/-- The configuration fields the collector core reads (`rootsense/config.py`). -/
structure Config where
  apiKey : String
  projectId : String
  environment : String
deriving DecidableEq

/-- A Python exception as the collector sees it: its runtime type name
(`type(exception).__name__`) and its string form (`str(exception)`). -/
structure PyException where
  typeName : String
  message : String
deriving DecidableEq

/-! ## Fingerprints (`ErrorCollector._generate_fingerprint`,
`ErrorCollector._generate_success_fingerprint`) -/

/-- `ErrorCollector._generate_fingerprint`: SHA-256 of
`f"{error_type}|{service}|{endpoint}"`, truncated to 16 hex characters, with
`service`/`endpoint` read from the context dict and defaulting to
`"unknown"`. -/
def generateFingerprint (exception : PyException) (context : Option Dict) : String :=
  let errorType := exception.typeName
  let service := match context with
    | some c => (aget c "service").getD "unknown"
    | none => "unknown"
  let endpoint := match context with
    | some c => (aget c "endpoint").getD "unknown"
    | none => "unknown"
  String.mk ((sha256HexChars (encodeUtf8 (errorType ++ "|" ++ service ++ "|" ++ endpoint))).take 16)

/-- `ErrorCollector._generate_success_fingerprint`: SHA-256 of
`f"*|{service}|{endpoint}"` with `service = config.project_id`, truncated to
16 hex characters. -/
def generateSuccessFingerprint (config : Config) (endpoint : String) : String :=
  let service := config.projectId
  String.mk ((sha256HexChars (encodeUtf8 ("*" ++ "|" ++ service ++ "|" ++ endpoint))).take 16)

/-- The error fingerprint as a function of the `(type, service, endpoint)`
triple, the formulation used by the spec's testable properties: the context
dict explicitly supplies `service` and `endpoint`. -/
def fingerprintOf (t s e : String) : String :=
  generateFingerprint ⟨t, ""⟩ (some [("service", s), ("endpoint", e)])

/-! ## Collector state and capture operations
(`rootsense/collectors/error_collector.py`) -/

/-- A reified network effect of the collector: one call into the transport. -/
inductive TransportCall where
  | sendEvents (batch : List Dict)
  | sendSuccessSignal (fingerprint : String) (context : Dict)
deriving DecidableEq

/-- The mutable state of an `ErrorCollector`: the bounded event queue
(`queue.Queue(maxsize=1000)` — the capacity is kept as a field) and the two
auto-resolution tracker maps. -/
structure CollectorState where
  queueItems : List Dict
  queueMaxsize : Nat
  recentErrors : List (String × Nat)
  recentSuccesses : List (String × Nat)
deriving DecidableEq

/-- `last_error.isoformat()` — the rendering of a model timestamp into the
string stored in a success context. -/
def timeStr (t : Nat) : String := toString t

/-- The error event dict built by `capture_exception`: identity and config
fields, then `event.update(context)`, then `event.update(kwargs)`. -/
def buildErrorEvent (cfg : Config) (eventId timestamp : String) (exception : PyException)
    (stackTrace : String) (context : Option Dict) (kwargs : Dict) : Dict :=
  let fingerprint := generateFingerprint exception context
  let event : Dict :=
    [("event_id", eventId), ("timestamp", timestamp), ("type", "error"),
     ("exception_type", exception.typeName), ("message", exception.message),
     ("stack_trace", stackTrace), ("fingerprint", fingerprint),
     ("environment", cfg.environment), ("project_id", cfg.projectId)]
  aupdate (aupdate event (context.getD [])) kwargs

/-- `ErrorCollector.capture_exception`: record the fingerprint in the
auto-resolution failure map, build the event, and try a non-blocking enqueue;
on a full queue the event is dropped and `None` is returned (the `queue.Full`
exception is caught). Returns the event id, the new state, and the transport
calls made (always none on this path). -/
def captureException (cfg : Config) (now : Nat) (eventId : String) (exception : PyException)
    (stackTrace : String) (context : Option Dict) (kwargs : Dict) (timestamp : String)
    (s : CollectorState) : Option String × CollectorState × List TransportCall :=
  let fingerprint := generateFingerprint exception context
  let s1 := { s with recentErrors := aput s.recentErrors fingerprint now }
  let event := buildErrorEvent cfg eventId timestamp exception stackTrace context kwargs
  if s1.queueItems.length < s1.queueMaxsize then
    (some eventId, { s1 with queueItems := s1.queueItems ++ [event] }, [])
  else
    (none, s1, [])

/-- The inputs of one `capture_message` call, together with the ambient
nondeterminism (generated uuid, timestamp). -/
structure MessageInput where
  eventId : String
  timestamp : String
  message : String
  level : String
  context : Option Dict
  kwargs : Dict
deriving DecidableEq

/-- The message event dict built by `capture_message`. -/
def buildMessageEvent (cfg : Config) (inp : MessageInput) : Dict :=
  let event : Dict :=
    [("event_id", inp.eventId), ("timestamp", inp.timestamp), ("type", "message"),
     ("level", inp.level), ("message", inp.message),
     ("environment", cfg.environment), ("project_id", cfg.projectId)]
  aupdate (aupdate event (inp.context.getD [])) inp.kwargs

/-- `ErrorCollector.capture_message`: build the event and try a non-blocking
enqueue; on a full queue the event is dropped and `None` is returned. -/
def captureMessage (cfg : Config) (inp : MessageInput) (s : CollectorState) :
    Option String × CollectorState × List TransportCall :=
  let event := buildMessageEvent cfg inp
  if s.queueItems.length < s.queueMaxsize then
    (some inp.eventId, { s with queueItems := s.queueItems ++ [event] }, [])
  else
    (none, s, [])

/-- `ErrorCollector.capture_success`: compute the success fingerprint, record
the success time, and if a failure for that fingerprint was recorded within
the last hour, send one success signal (carrying `endpoint`, `method`,
`last_error_time`, merged with the caller's context) and delete the failure
entry. -/
def captureSuccess (cfg : Config) (now : Nat) (endpoint method : String)
    (context : Option Dict) (s : CollectorState) : CollectorState × List TransportCall :=
  let fingerprint := generateSuccessFingerprint cfg endpoint
  let successes := aput s.recentSuccesses fingerprint now
  match aget s.recentErrors fingerprint with
  | some lastError =>
    if now - lastError < 3600 then
      let successContext :=
        aupdate [("endpoint", endpoint), ("method", method), ("last_error_time", timeStr lastError)]
          (context.getD [])
      ({ s with recentSuccesses := successes,
                recentErrors := adel s.recentErrors fingerprint },
       [TransportCall.sendSuccessSignal fingerprint successContext])
    else
      ({ s with recentSuccesses := successes }, [])
  | none => ({ s with recentSuccesses := successes }, [])

/-- `ErrorCollector.flush`: poll until the queue empties or the deadline
passes (a no-op on the sequential state — the timeout bounds only the wait),
then drain everything that remains and hand it to the transport as one batch
(`_send_batch` skips empty batches). -/
def flush (_timeout : Nat) (s : CollectorState) : CollectorState × List TransportCall :=
  let batch := s.queueItems
  ({ s with queueItems := [] },
   if batch.isEmpty then [] else [TransportCall.sendEvents batch])

/-- One producer-side capture call: either a `capture_exception` or a
`capture_message`, with all its inputs. -/
inductive CaptureInput where
  | exc (now : Nat) (eventId : String) (exception : PyException) (stackTrace : String)
        (context : Option Dict) (kwargs : Dict) (timestamp : String)
  | msg (inp : MessageInput)
deriving DecidableEq

/-- The event id a capture call generates before attempting the enqueue. -/
def captureInputId : CaptureInput → String
  | .exc _ eventId _ _ _ _ _ => eventId
  | .msg inp => inp.eventId

/-- The event dict a capture call builds. -/
def captureInputEvent (cfg : Config) : CaptureInput → Dict
  | .exc _ eventId exception stackTrace context kwargs timestamp =>
      buildErrorEvent cfg eventId timestamp exception stackTrace context kwargs
  | .msg inp => buildMessageEvent cfg inp

/-- Apply one capture call to the collector state. -/
def applyCapture (cfg : Config) (ci : CaptureInput) (s : CollectorState) :
    Option String × CollectorState × List TransportCall :=
  match ci with
  | .exc now eventId exception stackTrace context kwargs timestamp =>
      captureException cfg now eventId exception stackTrace context kwargs timestamp s
  | .msg inp => captureMessage cfg inp s

/-- Apply a sequence of capture calls, collecting the returned event ids. -/
def runCaptures (cfg : Config) : List CaptureInput → CollectorState → List (Option String) × CollectorState
  | [], s => ([], s)
  | ci :: rest, s =>
    let r := applyCapture cfg ci s
    let rr := runCaptures cfg rest r.2.1
    (r.1 :: rr.1, rr.2)

/-! ## Transport retry loop (`HttpTransport.send_events`) -/

/-- The outcome of one `session.post`: an HTTP response with a status code, or
a raised `requests.RequestException` (connection error or timeout). -/
inductive HttpResult where
  | ok (status : Nat)
  | exn
deriving DecidableEq

/-- Whether an attempt outcome falls through to the retry path: any raised
request exception, or a 5xx status. -/
def isRetryable : HttpResult → Bool
  | .ok status => decide (500 ≤ status)
  | .exn => true

/-- The body of `for attempt in range(3)` in `HttpTransport.send_events`.
`attempt` is the loop index, `fuel` the number of remaining iterations, and
`outcomes i` the result of the `i`-th POST. Returns the function result, the
number of POSTs made, and the `time.sleep` durations (seconds) in order. -/
def attemptLoop (outcomes : Nat → HttpResult) : Nat → Nat → Bool × Nat × List Nat
  | _, 0 => (false, 0, [])
  | attempt, fuel + 1 =>
    let early : Option Bool :=
      match outcomes attempt with
      | .ok status =>
        if status = 200 then some true
        else if status < 500 then some false
        else none
      | .exn => none
    match early with
    | some b => (b, 1, [])
    | none =>
      let rest := attemptLoop outcomes (attempt + 1) fuel
      (rest.1, rest.2.1 + 1, (if attempt < 2 then [2 ^ attempt] else []) ++ rest.2.2)

/-- `HttpTransport.send_events`: empty batches succeed without a network call;
otherwise run the 3-attempt retry loop. -/
def sendEvents (events : List Dict) (outcomes : Nat → HttpResult) : Bool × Nat × List Nat :=
  if events.isEmpty then (true, 0, []) else attemptLoop outcomes 0 3

/-! ## Ambient context (`rootsense/context.py`) -/

/-- The thread-local ambient context: tags, extra, user, breadcrumbs. -/
structure AmbientContext where
  tags : Dict
  extra : Dict
  user : Dict
  breadcrumbs : List Dict
deriving DecidableEq

/-- The freshly initialized thread-local context. -/
def emptyAmbient : AmbientContext := ⟨[], [], [], []⟩

/-- `Context.set_tag`. -/
def setTag (c : AmbientContext) (k v : String) : AmbientContext :=
  { c with tags := aput c.tags k v }

/-- `Context.get_context`: the four components, as (copies of) the stored
state. -/
def getContext (c : AmbientContext) : Dict × Dict × Dict × List Dict :=
  (c.tags, c.extra, c.user, c.breadcrumbs)

/-! ## Pigeonhole helpers for fingerprint non-injectivity -/

/-- A base-`2^32` encoding of a character list; injective on lists of equal
length, since every `Char.toNat` is below `2^32`. -/
def encodeChars : List Char → Nat
  | [] => 0
  | c :: cs => c.toNat + 4294967296 * encodeChars cs

/-- An injective supply of endpoint strings. -/
def repChar (n : Nat) : String := String.mk (List.replicate n 'a')

/-- The value of `4294967296 ^ 16`, a bound on the base-`2^32` encoding of a
16-character fingerprint. -/
def fpBound : Nat := 13407807929942597099574024998205846127479365820592393377723561443721764030073546976801874298166903427690031858186486050853753882811946569946433649006084096

/-! ## Sample values used to instantiate the verified properties -/

def sampleConfig : Config := ⟨"test-key", "test-project", "production"⟩

def sampleMsgInput : MessageInput := ⟨"id-1", "ts-1", "hello", "info", none, []⟩

def sampleMsgInput2 : MessageInput := ⟨"id-2", "ts-2", "world", "info", none, []⟩

/-- A collector state holding one recent-failure entry for the success
fingerprint of endpoint `"/api"`, recorded at time 0. -/
def sampleFailState : CollectorState :=
  ⟨[], 1000, [(generateSuccessFingerprint sampleConfig "/api", 0)], []⟩

/-! ## Lemmas about the dict operations -/

theorem aget_nil {α : Type} (k : String) : aget ([] : List (String × α)) k = none := rfl

theorem aget_cons_of_pos {α : Type} {p : String × α} {rest : List (String × α)} {k : String}
    (h : (p.1 == k) = true) : aget (p :: rest) k = some p.2 := by
  unfold aget
  rw [List.find?_cons_of_pos rest (show (fun q : String × α => q.1 == k) p = true from h)]
  rfl

theorem aget_cons_of_neg {α : Type} {p : String × α} {rest : List (String × α)} {k : String}
    (h : (p.1 == k) = false) : aget (p :: rest) k = aget rest k := by
  unfold aget
  rw [List.find?_cons_of_neg rest
    (show ¬((fun q : String × α => q.1 == k) p = true) from by simp [h])]

theorem aget_of_any_eq_false {α : Type} {d : List (String × α)} {k : String}
    (h : d.any (fun p => p.1 == k) = false) : aget d k = none := by
  induction d with
  | nil => rfl
  | cons p rest ih =>
    rw [List.any_cons, Bool.or_eq_false_iff] at h
    rw [aget_cons_of_neg h.1]
    exact ih h.2

theorem aget_append_left_none {α : Type} {d : List (String × α)} {k : String}
    (h : aget d k = none) (e : List (String × α)) : aget (d ++ e) k = aget e k := by
  induction d with
  | nil => rfl
  | cons p rest ih =>
    cases hp : p.1 == k with
    | true => rw [aget_cons_of_pos hp] at h; exact absurd h (by simp)
    | false =>
      rw [aget_cons_of_neg hp] at h
      rw [List.cons_append, aget_cons_of_neg hp]
      exact ih h

theorem aget_map_overwrite {α : Type} {k : String} {v : α} :
    ∀ d : List (String × α), d.any (fun p => p.1 == k) = true →
      aget (d.map (fun p => if p.1 == k then (k, v) else p)) k = some v := by
  intro d
  induction d with
  | nil => intro h; exact absurd h (by simp)
  | cons p rest ih =>
    intro h
    rw [List.map_cons]
    cases hp : p.1 == k with
    | true =>
      rw [if_pos rfl,
        aget_cons_of_pos (show (((k, v) : String × α).1 == k) = true from beq_self_eq_true k)]
    | false =>
      simp only [List.any_cons] at h
      rw [hp, Bool.false_or] at h
      rw [if_neg (by simp), aget_cons_of_neg hp]
      exact ih h

theorem aget_map_overwrite_ne {α : Type} {k k' : String} {v : α} (hne : k' ≠ k) :
    ∀ d : List (String × α),
      aget (d.map (fun p => if p.1 == k then (k, v) else p)) k' = aget d k' := by
  have hkk : (k == k') = false := beq_eq_false_iff_ne.2 (fun hkk => hne hkk.symm)
  intro d
  induction d with
  | nil => rfl
  | cons p rest ih =>
    rw [List.map_cons]
    cases hp : p.1 == k with
    | true =>
      have hpk : p.1 = k := by simpa using hp
      have h2 : (p.1 == k') = false := by rw [hpk]; exact hkk
      rw [if_pos rfl, aget_cons_of_neg (show (((k, v) : String × α).1 == k') = false from hkk),
        aget_cons_of_neg h2]
      exact ih
    | false =>
      cases hq : p.1 == k' with
      | true =>
        rw [if_neg (by simp), aget_cons_of_pos hq, aget_cons_of_pos hq]
      | false =>
        rw [if_neg (by simp), aget_cons_of_neg hq, aget_cons_of_neg hq]
        exact ih

theorem aget_aput_self {α : Type} (d : List (String × α)) (k : String) (v : α) :
    aget (aput d k v) k = some v := by
  unfold aput
  by_cases h : d.any (fun p => p.1 == k) = true
  · rw [if_pos h]
    exact aget_map_overwrite d h
  · have h0 : d.any (fun p => p.1 == k) = false := by
      cases hb : d.any (fun p => p.1 == k) with
      | false => rfl
      | true => exact absurd hb h
    rw [if_neg h]
    rw [aget_append_left_none (aget_of_any_eq_false h0)]
    exact aget_cons_of_pos (beq_self_eq_true k)

theorem aget_aput_ne {α : Type} (d : List (String × α)) (k k' : String) (v : α)
    (hne : k' ≠ k) : aget (aput d k v) k' = aget d k' := by
  have hkk : (k == k') = false := beq_eq_false_iff_ne.2 (fun hkk => hne hkk.symm)
  unfold aput
  by_cases h : d.any (fun p => p.1 == k) = true
  · rw [if_pos h]
    exact aget_map_overwrite_ne hne d
  · rw [if_neg h]
    induction d with
    | nil => rw [List.nil_append, aget_cons_of_neg hkk]
    | cons p rest ih =>
      rw [List.cons_append]
      cases hq : p.1 == k' with
      | true => rw [aget_cons_of_pos hq, aget_cons_of_pos hq]
      | false =>
        rw [aget_cons_of_neg hq, aget_cons_of_neg hq]
        exact ih (by
          rw [List.any_cons] at h
          intro hr
          exact h (by rw [hr, Bool.or_true]))

theorem aget_adel_self {α : Type} (d : List (String × α)) (k : String) :
    aget (adel d k) k = none := by
  unfold adel
  induction d with
  | nil => rfl
  | cons p rest ih =>
    rw [List.filter_cons]
    cases hp : p.1 == k with
    | true => simpa [hp] using ih
    | false =>
      rw [if_pos (by simp [hp])]
      rw [aget_cons_of_neg hp]
      exact ih

theorem aget_aupdate_of_not_mem {α : Type} {k : String} :
    ∀ (e d : List (String × α)), e.any (fun p => p.1 == k) = false →
      aget (aupdate d e) k = aget d k := by
  intro e
  induction e with
  | nil => intro d _; rfl
  | cons p rest ih =>
    intro d h
    simp only [List.any_cons, Bool.or_eq_false_iff] at h
    have hne : k ≠ p.1 := by
      intro hkp
      rw [hkp] at h
      simp at h
    calc aget (aupdate d (p :: rest)) k
        = aget (aupdate (aput d p.1 p.2) rest) k := rfl
      _ = aget (aput d p.1 p.2) k := ih _ h.2
      _ = aget d k := aget_aput_ne d p.1 k p.2 hne

theorem aget_aupdate_of_mem_nodup {α : Type} {k : String} {v : α} :
    ∀ (e d : List (String × α)), (e.map Prod.fst).Nodup → aget e k = some v →
      aget (aupdate d e) k = some v := by
  intro e
  induction e with
  | nil => intro d _ hget; simp [aget] at hget
  | cons p rest ih =>
    intro d hnd hget
    rw [List.map_cons, List.nodup_cons] at hnd
    cases hp : p.1 == k with
    | true =>
      have hpk : p.1 = k := by simpa using hp
      have hvv : v = p.2 := by
        rw [aget_cons_of_pos hp] at hget
        exact (Option.some.inj hget).symm
      have hrest : rest.any (fun q => q.1 == k) = false := by
        rw [List.any_eq_false]
        intro q hq
        simp only [beq_iff_eq]
        intro hqk
        refine hnd.1 ?_
        rw [hpk, ← hqk]
        exact List.mem_map_of_mem Prod.fst hq
      calc aget (aupdate d (p :: rest)) k
          = aget (aupdate (aput d p.1 p.2) rest) k := rfl
        _ = aget (aput d p.1 p.2) k := aget_aupdate_of_not_mem rest _ hrest
        _ = some p.2 := by rw [hpk]; exact aget_aput_self _ _ _
        _ = some v := by rw [hvv]
    | false =>
      rw [aget_cons_of_neg hp] at hget
      exact ih _ hnd.2 hget

theorem hasKey_of_aget_ne_none {α : Type} {d : List (String × α)} {k : String}
    (h : aget d k ≠ none) : hasKey d k = true := by
  by_cases hk : hasKey d k = true
  · exact hk
  · have h0 : d.any (fun p => p.1 == k) = false := by
      cases hb : d.any (fun p => p.1 == k) with
      | false => rfl
      | true => exact absurd (show hasKey d k = true from hb) hk
    exact absurd (aget_of_any_eq_false h0) h

theorem aget_double_update_provenance (base ctx kwargs : Dict) (k : String)
    (h : aget (aupdate (aupdate base ctx) kwargs) k ≠ none) :
    hasKey base k = true ∨ hasKey ctx k = true ∨ hasKey kwargs k = true := by
  by_cases hkw : hasKey kwargs k = true
  · exact Or.inr (Or.inr hkw)
  · have hkw2 : kwargs.any (fun p => p.1 == k) = false := by
      cases hb : kwargs.any (fun p => p.1 == k) with
      | false => rfl
      | true => exact absurd (show hasKey kwargs k = true from hb) hkw
    rw [aget_aupdate_of_not_mem kwargs _ hkw2] at h
    by_cases hc : hasKey ctx k = true
    · exact Or.inr (Or.inl hc)
    · have hc2 : ctx.any (fun p => p.1 == k) = false := by
        cases hb : ctx.any (fun p => p.1 == k) with
        | false => rfl
        | true => exact absurd (show hasKey ctx k = true from hb) hc
      rw [aget_aupdate_of_not_mem ctx _ hc2] at h
      exact Or.inl (hasKey_of_aget_ne_none h)

/-! ## Fingerprint length and the pigeonhole argument -/

theorem charToNat_lt (c : Char) : c.toNat < 4294967296 :=
  UInt32.toNat_lt_size c.val

theorem encodeChars_injOn : ∀ (l1 l2 : List Char), l1.length = l2.length →
    encodeChars l1 = encodeChars l2 → l1 = l2 := by
  intro l1
  induction l1 with
  | nil =>
    intro l2 hlen _
    cases l2 with
    | nil => rfl
    | cons d ds => simp at hlen
  | cons c cs ih =>
    intro l2 hlen henc
    cases l2 with
    | nil => simp at hlen
    | cons d ds =>
      rw [List.length_cons, List.length_cons, Nat.add_right_cancel_iff] at hlen
      unfold encodeChars at henc
      have hc := charToNat_lt c
      have hd := charToNat_lt d
      have h1 : c.toNat = d.toNat ∧ encodeChars cs = encodeChars ds := by omega
      have hcd : c = d := by
        have h2 := congrArg Char.ofNat h1.1
        rwa [Char.ofNat_toNat, Char.ofNat_toNat] at h2
      rw [hcd, ih ds hlen h1.2]

theorem encodeChars_lt : ∀ l : List Char, encodeChars l < 4294967296 ^ l.length := by
  intro l
  induction l with
  | nil => simp [encodeChars]
  | cons c cs ih =>
    rw [List.length_cons]
    unfold encodeChars
    have hc := charToNat_lt c
    calc c.toNat + 4294967296 * encodeChars cs
        < 4294967296 * (encodeChars cs + 1) := by omega
      _ ≤ 4294967296 * 4294967296 ^ cs.length := Nat.mul_le_mul (Nat.le_refl _) ih
      _ = 4294967296 ^ (cs.length + 1) := by ring

theorem repChar_injective : Function.Injective repChar := by
  intro m n h
  unfold repChar at h
  have h2 : List.replicate m 'a' = List.replicate n 'a' := by
    injection h
  have h3 := congrArg List.length h2
  simpa using h3

theorem wordHexChars_length (x : Nat) : (wordHexChars x).length = 8 := by
  simp [wordHexChars]

theorem sha256HexChars_length (msg : List Nat) : (sha256HexChars msg).length = 64 := by
  unfold sha256HexChars hashToList
  simp [wordHexChars_length]

theorem fingerprintOf_length (t s e : String) : (fingerprintOf t s e).length = 16 := by
  unfold fingerprintOf generateFingerprint
  simp [sha256HexChars_length]

theorem fingerprintOf_data_length (t s e : String) :
    (fingerprintOf t s e).data.length = 16 := fingerprintOf_length t s e

theorem fpBound_ge : (4294967296 : Nat) ^ 16 ≤ fpBound := by norm_num [fpBound]

/-! ## Queue behavior of the capture paths -/

theorem applyCapture_spec (cfg : Config) (ci : CaptureInput) (s : CollectorState) :
    (s.queueItems.length < s.queueMaxsize →
      (applyCapture cfg ci s).1 = some (captureInputId ci) ∧
      (applyCapture cfg ci s).2.1.queueItems = s.queueItems ++ [captureInputEvent cfg ci] ∧
      (applyCapture cfg ci s).2.1.queueMaxsize = s.queueMaxsize) ∧
    (¬ s.queueItems.length < s.queueMaxsize →
      (applyCapture cfg ci s).1 = none ∧
      (applyCapture cfg ci s).2.1.queueItems = s.queueItems ∧
      (applyCapture cfg ci s).2.1.queueMaxsize = s.queueMaxsize) := by
  cases ci with
  | exc now eventId exception stackTrace context kwargs timestamp =>
    constructor <;> intro h <;>
      simp [applyCapture, captureException, captureInputId, captureInputEvent, h]
  | msg inp =>
    constructor <;> intro h <;>
      simp [applyCapture, captureMessage, captureInputId, captureInputEvent, h]

theorem runCaptures_within_capacity (cfg : Config) :
    ∀ (inputs : List CaptureInput) (s : CollectorState),
      s.queueItems.length + inputs.length ≤ s.queueMaxsize →
      (runCaptures cfg inputs s).1 = inputs.map (fun ci => some (captureInputId ci)) ∧
      (runCaptures cfg inputs s).2.queueItems =
        s.queueItems ++ inputs.map (captureInputEvent cfg) ∧
      (runCaptures cfg inputs s).2.queueMaxsize = s.queueMaxsize := by
  intro inputs
  induction inputs with
  | nil =>
    intro s _
    exact ⟨rfl, by simp [runCaptures], rfl⟩
  | cons ci rest ih =>
    intro s h
    simp only [List.length_cons] at h
    have hlt : s.queueItems.length < s.queueMaxsize := by omega
    obtain ⟨h1, h2, h3⟩ := (applyCapture_spec cfg ci s).1 hlt
    obtain ⟨g1, g2, g3⟩ := ih ((applyCapture cfg ci s).2.1) (by
      rw [h2, h3, List.length_append]
      simpa using by omega)
    refine ⟨?_, ?_, ?_⟩
    · show (applyCapture cfg ci s).1 ::
        (runCaptures cfg rest (applyCapture cfg ci s).2.1).1 = _
      rw [h1, g1, List.map_cons]
    · show (runCaptures cfg rest (applyCapture cfg ci s).2.1).2.queueItems = _
      rw [g2, h2, List.map_cons, List.append_assoc, List.singleton_append]
    · show (runCaptures cfg rest (applyCapture cfg ci s).2.1).2.queueMaxsize = _
      rw [g3, h3]

theorem runCaptures_append (cfg : Config) :
    ∀ (l1 l2 : List CaptureInput) (s : CollectorState),
      runCaptures cfg (l1 ++ l2) s =
        ((runCaptures cfg l1 s).1 ++ (runCaptures cfg l2 (runCaptures cfg l1 s).2).1,
         (runCaptures cfg l2 (runCaptures cfg l1 s).2).2) := by
  intro l1
  induction l1 with
  | nil => intro l2 s; rfl
  | cons ci rest ih =>
    intro l2 s
    show ((applyCapture cfg ci s).1 ::
        (runCaptures cfg (rest ++ l2) (applyCapture cfg ci s).2.1).1,
        (runCaptures cfg (rest ++ l2) (applyCapture cfg ci s).2.1).2) = _
    rw [ih l2 ((applyCapture cfg ci s).2.1)]
    rfl

/-! ## The transport retry loop -/

theorem attemptLoop_posts_le (outcomes : Nat → HttpResult) :
    ∀ (fuel attempt : Nat), (attemptLoop outcomes attempt fuel).2.1 ≤ fuel := by
  intro fuel
  induction fuel with
  | zero => intro a; exact Nat.le_refl 0
  | succ f ih =>
    intro a
    unfold attemptLoop
    cases houtcome : outcomes a with
    | ok status =>
      by_cases h200 : status = 200
      · simp [houtcome, h200]
      · by_cases h500 : status < 500
        · simp [houtcome, h200, h500]
        · simpa [houtcome, h200, h500] using Nat.succ_le_succ (ih (a + 1))
    | exn =>
      simpa [houtcome] using Nat.succ_le_succ (ih (a + 1))

theorem attemptLoop_success (outcomes : Nat → HttpResult) (a f : Nat)
    (h : outcomes a = .ok 200) : attemptLoop outcomes a (f + 1) = (true, 1, []) := by
  unfold attemptLoop
  simp [h]

theorem attemptLoop_terminal (outcomes : Nat → HttpResult) (a f : Nat) {status : Nat}
    (h : outcomes a = .ok status) (h2 : status ≠ 200) (h3 : status < 500) :
    attemptLoop outcomes a (f + 1) = (false, 1, []) := by
  unfold attemptLoop
  simp [h, h2, h3]

theorem attemptLoop_retry (outcomes : Nat → HttpResult) (a f : Nat)
    (h : isRetryable (outcomes a) = true) :
    attemptLoop outcomes a (f + 1) =
      ((attemptLoop outcomes (a + 1) f).1,
       (attemptLoop outcomes (a + 1) f).2.1 + 1,
       (if a < 2 then [2 ^ a] else []) ++ (attemptLoop outcomes (a + 1) f).2.2) := by
  cases ho : outcomes a with
  | exn =>
    conv_lhs => rw [attemptLoop]
    rw [ho]
  | ok status =>
    rw [ho] at h
    unfold isRetryable at h
    have h5 : 500 ≤ status := of_decide_eq_true h
    have h2 : ¬(status = 200) := by omega
    have h3 : ¬(status < 500) := by omega
    conv_lhs => rw [attemptLoop]
    rw [ho]
    simp [h2, h3]

/-! ## Validation of the SHA-256 embedding against FIPS 180-4 test vectors
and the reference fingerprints -/

set_option maxHeartbeats 800000

theorem sha256_vector_abc : sha256Hexdigest (encodeUtf8 "abc") =
    "ba7816bf8f01cfea414140de5dae2223b00361a396177a9cb410ff61f20015ad" := by decide

theorem sha256_vector_empty : sha256Hexdigest (encodeUtf8 "") =
    "e3b0c44298fc1c149afbf4c8996fb92427ae41e4649b934ca495991b7852b855" := by decide

theorem fingerprint_reference_value :
    fingerprintOf "ValueError" "api" "/users" = "cb1c579c488a7024" := by decide

theorem fingerprint_reference_value_posts :
    fingerprintOf "ValueError" "api" "/posts" = "1a0e8d1edc47078e" := by decide

theorem error_fingerprint_reference_value :
    generateFingerprint ⟨"ValueError", "boom"⟩
      (some [("service", "myproject"), ("endpoint", "/api/users")]) = "153733020e672aa0" := by
  decide

theorem success_fingerprint_reference_value :
    generateSuccessFingerprint ⟨"key", "myproject", "production"⟩ "/api/users" =
      "7458e61ddc9471ca" := by decide

/-! ## The verified claims -/

/-- Claim C1: the spec's §4.3 correlation requires `capture_success`'s
fingerprint for an endpoint to equal the error fingerprint of that endpoint
family, and the code's own comments claim `_generate_success_fingerprint`
produces "the same fingerprint as errors would use". The code violates this:
for a `ValueError` captured with context `{service: "myproject", endpoint:
"/api/users"}` under `project_id = "myproject"`, `_generate_fingerprint`
hashes `"ValueError|myproject|/api/users"` while
`_generate_success_fingerprint` hashes `"*|myproject|/api/users"`, and the
truncated digests differ — so a success can never match a recorded failure
entry produced by `capture_exception`. -/
theorem C1_success_fingerprint_mismatch :
    generateFingerprint ⟨"ValueError", "boom"⟩
        (some [("service", "myproject"), ("endpoint", "/api/users")]) ≠
      generateSuccessFingerprint ⟨"key", "myproject", "production"⟩ "/api/users" := by
  rw [error_fingerprint_reference_value, success_fingerprint_reference_value]
  decide

/-- Claim C4 (counterexample): the claimed injectivity — `fingerprint(T,S,E) ≠
fingerprint(T,S,E')` whenever `E ≠ E'` — is false for the code: fingerprints
are 16-character strings, a finite codomain, while endpoints range over an
infinite set, so by pigeonhole two distinct endpoints must share a
fingerprint. -/
theorem C4_fingerprint_not_injective_in_endpoint :
    ¬ (∀ (t s e ep : String), e ≠ ep → fingerprintOf t s e ≠ fingerprintOf t s ep) := by
  intro hinj
  have hbound : ∀ n : Nat,
      encodeChars (fingerprintOf "ValueError" "api" (repChar n)).data < fpBound := by
    intro n
    have h1 := encodeChars_lt (fingerprintOf "ValueError" "api" (repChar n)).data
    rw [fingerprintOf_data_length "ValueError" "api" (repChar n)] at h1
    exact Nat.lt_of_lt_of_le h1 fpBound_ge
  obtain ⟨x, y, hxy, hFxy⟩ := Finite.exists_ne_map_eq_of_infinite
    (fun n : Nat => (⟨encodeChars (fingerprintOf "ValueError" "api" (repChar n)).data,
      hbound n⟩ : Fin fpBound))
  rw [Fin.mk.injEq] at hFxy
  have hdata := encodeChars_injOn _ _
    ((fingerprintOf_data_length "ValueError" "api" (repChar x)).trans
      (fingerprintOf_data_length "ValueError" "api" (repChar y)).symm) hFxy
  have hfp : fingerprintOf "ValueError" "api" (repChar x) =
      fingerprintOf "ValueError" "api" (repChar y) := congrArg String.mk hdata
  have hne : repChar x ≠ repChar y := fun hc => hxy (repChar_injective hc)
  exact hinj "ValueError" "api" (repChar x) (repChar y) hne hfp

/-- Claim C4 (amended): the error fingerprint is a deterministic pure function
of the `(exception type, service, endpoint)` triple — `service` and `endpoint`
defaulting to `"unknown"` when absent from the context — equal to the first 16
hex characters of SHA-256 of `"type|service|endpoint"`; computing it twice
yields the identical string and equal triples give equal fingerprints, and the
reference endpoints `"/users"` vs `"/posts"` do give distinct fingerprints —
but distinctness of endpoints does not guarantee distinct fingerprints in
general (see the counterexample). -/
theorem C4_fingerprint_function_of_triple (exception : PyException) (c : Dict)
    (t s e : String) (hs : aget c "service" = some s) (he : aget c "endpoint" = some e) :
    generateFingerprint exception (some c) =
      String.mk ((sha256HexChars
        (encodeUtf8 (exception.typeName ++ "|" ++ s ++ "|" ++ e))).take 16) ∧
    generateFingerprint exception none =
      String.mk ((sha256HexChars
        (encodeUtf8 (exception.typeName ++ "|" ++ "unknown" ++ "|" ++ "unknown"))).take 16) ∧
    fingerprintOf t s e = fingerprintOf t s e ∧
    (∀ c2 : Dict, aget c2 "service" = some s → aget c2 "endpoint" = some e →
      generateFingerprint exception (some c2) = generateFingerprint exception (some c)) ∧
    fingerprintOf "ValueError" "api" "/users" ≠ fingerprintOf "ValueError" "api" "/posts" := by
  have h1 : generateFingerprint exception (some c) =
      String.mk ((sha256HexChars
        (encodeUtf8 (exception.typeName ++ "|" ++ s ++ "|" ++ e))).take 16) := by
    show String.mk ((sha256HexChars (encodeUtf8 (exception.typeName ++ "|" ++
        (aget c "service").getD "unknown" ++ "|" ++
        (aget c "endpoint").getD "unknown"))).take 16) = _
    rw [hs, he]
    rfl
  refine ⟨h1, rfl, rfl, ?_, by
    rw [fingerprint_reference_value, fingerprint_reference_value_posts]
    decide⟩
  intro c2 hs2 he2
  rw [h1]
  show String.mk ((sha256HexChars (encodeUtf8 (exception.typeName ++ "|" ++
      (aget c2 "service").getD "unknown" ++ "|" ++
      (aget c2 "endpoint").getD "unknown"))).take 16) = _
  rw [hs2, he2]
  rfl

theorem C4_fingerprint_function_of_triple_witness :
    aget [("service", "api"), ("endpoint", "/users")] "service" = some "api" ∧
    aget [("service", "api"), ("endpoint", "/users")] "endpoint" = some "/users" ∧
    fingerprintOf "ValueError" "api" "/users" ≠ fingerprintOf "ValueError" "api" "/posts" :=
  ⟨rfl, rfl,
    (C4_fingerprint_function_of_triple ⟨"ValueError", "Test"⟩
      [("service", "api"), ("endpoint", "/users")] "ValueError" "api" "/users"
      rfl rfl).2.2.2.2⟩

/-- Claim C3: `send_events` makes at most 3 attempts; an HTTP 200 returns
`true` after exactly one attempt; a non-200 status below 500 is terminal,
returning `false` after exactly one attempt with no sleep; retryable outcomes
(5xx status, or a raised request exception covering timeouts and connection
errors) are retried with sleeps of `2^attempt` seconds — 1s then 2s — and
three retryable outcomes return `false` after exactly 3 attempts, while two
failures followed by a 200 return `true` after exactly 3 attempts; an empty
batch returns `true` with no network call. -/
theorem C3_send_events_retry_policy (events : List Dict) (outcomes : Nat → HttpResult)
    (hne : events ≠ []) :
    sendEvents [] outcomes = (true, 0, []) ∧
    (sendEvents events outcomes).2.1 ≤ 3 ∧
    (outcomes 0 = .ok 200 → sendEvents events outcomes = (true, 1, [])) ∧
    (∀ status : Nat, outcomes 0 = .ok status → status ≠ 200 → status < 500 →
      sendEvents events outcomes = (false, 1, [])) ∧
    (isRetryable (outcomes 0) = true → isRetryable (outcomes 1) = true →
      isRetryable (outcomes 2) = true →
      sendEvents events outcomes = (false, 3, [1, 2])) ∧
    (isRetryable (outcomes 0) = true → isRetryable (outcomes 1) = true →
      outcomes 2 = .ok 200 →
      sendEvents events outcomes = (true, 3, [1, 2])) := by
  have hemp : events.isEmpty = false := by
    cases events with
    | nil => exact absurd rfl hne
    | cons a l => rfl
  have hsend : sendEvents events outcomes = attemptLoop outcomes 0 3 := by
    unfold sendEvents
    rw [hemp]
    rfl
  refine ⟨rfl, ?_, ?_, ?_, ?_, ?_⟩
  · rw [hsend]
    exact attemptLoop_posts_le outcomes 3 0
  · intro h0
    rw [hsend]
    exact attemptLoop_success outcomes 0 2 h0
  · intro status h0 h200 h500
    rw [hsend]
    exact attemptLoop_terminal outcomes 0 2 h0 h200 h500
  · intro h0 h1 h2
    have e1 : attemptLoop outcomes 0 3 =
        ((attemptLoop outcomes 1 2).1, (attemptLoop outcomes 1 2).2.1 + 1,
         (if 0 < 2 then [2 ^ 0] else []) ++ (attemptLoop outcomes 1 2).2.2) :=
      attemptLoop_retry outcomes 0 2 h0
    have e2 : attemptLoop outcomes 1 2 =
        ((attemptLoop outcomes 2 1).1, (attemptLoop outcomes 2 1).2.1 + 1,
         (if 1 < 2 then [2 ^ 1] else []) ++ (attemptLoop outcomes 2 1).2.2) :=
      attemptLoop_retry outcomes 1 1 h1
    have e3 : attemptLoop outcomes 2 1 =
        ((attemptLoop outcomes 3 0).1, (attemptLoop outcomes 3 0).2.1 + 1,
         (if 2 < 2 then [2 ^ 2] else []) ++ (attemptLoop outcomes 3 0).2.2) :=
      attemptLoop_retry outcomes 2 0 h2
    rw [hsend, e1, e2, e3]
    rfl
  · intro h0 h1 h2
    have e1 : attemptLoop outcomes 0 3 =
        ((attemptLoop outcomes 1 2).1, (attemptLoop outcomes 1 2).2.1 + 1,
         (if 0 < 2 then [2 ^ 0] else []) ++ (attemptLoop outcomes 1 2).2.2) :=
      attemptLoop_retry outcomes 0 2 h0
    have e2 : attemptLoop outcomes 1 2 =
        ((attemptLoop outcomes 2 1).1, (attemptLoop outcomes 2 1).2.1 + 1,
         (if 1 < 2 then [2 ^ 1] else []) ++ (attemptLoop outcomes 2 1).2.2) :=
      attemptLoop_retry outcomes 1 1 h1
    have e3 : attemptLoop outcomes 2 1 = (true, 1, []) :=
      attemptLoop_success outcomes 2 0 h2
    rw [hsend, e1, e2, e3]
    rfl

theorem C3_send_events_retry_policy_witness :
    ([sampleMsgInput.kwargs] : List Dict) ≠ [] ∧
    sendEvents [sampleMsgInput.kwargs] (fun _ => HttpResult.ok 500) = (false, 3, [1, 2]) :=
  have h := C3_send_events_retry_policy [sampleMsgInput.kwargs]
    (fun _ => HttpResult.ok 500) (by simp)
  ⟨by simp, h.2.2.2.2.1 (by decide) (by decide) (by decide)⟩

/-- Claim C10: `capture_exception` records the fingerprint in the
auto-resolution failure map before attempting the enqueue, so even when the
queue is full — the capture returns no event id and the event is dropped —
the failure entry is set to the capture time and retained; the tracker update
is never rolled back on the capacity-failure path. -/
theorem C10_failure_tracker_survives_queue_drop (cfg : Config) (now : Nat)
    (eventId : String) (exception : PyException) (stackTrace : String)
    (context : Option Dict) (kwargs : Dict) (timestamp : String) (s : CollectorState) :
    aget (captureException cfg now eventId exception stackTrace context kwargs
        timestamp s).2.1.recentErrors (generateFingerprint exception context) = some now ∧
    (s.queueMaxsize ≤ s.queueItems.length →
      (captureException cfg now eventId exception stackTrace context kwargs
        timestamp s).1 = none ∧
      (captureException cfg now eventId exception stackTrace context kwargs
        timestamp s).2.1.queueItems = s.queueItems) := by
  constructor
  · by_cases h : s.queueItems.length < s.queueMaxsize <;>
      simp [captureException, h, aget_aput_self]
  · intro hfull
    have h : ¬ s.queueItems.length < s.queueMaxsize := by omega
    constructor <;> simp [captureException, h]

/-- Claim C2: if a failure for fingerprint `F` was recorded at `t0` and a
success correlating to `F` (one whose computed success fingerprint equals `F`)
is recorded at `t0 + d1` with `d1 < 1` hour, exactly one
`Transport.send_success_signal(F, ctx)` call is made — `ctx` carrying
`endpoint`, `method`, `last_error_time` merged with the caller's context — and
the failure entry for `F` is removed (the return of the signal call is never
consulted); a second success recorded immediately after triggers no further
signal; at `t0 + d2` with `d2 ≥ 1` hour no signal is sent and only the
success timestamp is recorded. -/
theorem C2_auto_resolution_signals_once (cfg : Config) (endpoint method : String)
    (context : Option Dict) (s : CollectorState) (t0 d1 d2 : Nat)
    (herr : aget s.recentErrors (generateSuccessFingerprint cfg endpoint) = some t0)
    (hd1 : d1 < 3600) (hd2 : 3600 ≤ d2) :
    (captureSuccess cfg (t0 + d1) endpoint method context s).2 =
      [TransportCall.sendSuccessSignal (generateSuccessFingerprint cfg endpoint)
        (aupdate [("endpoint", endpoint), ("method", method), ("last_error_time", timeStr t0)]
          (context.getD []))] ∧
    aget (captureSuccess cfg (t0 + d1) endpoint method context s).1.recentErrors
        (generateSuccessFingerprint cfg endpoint) = none ∧
    (∀ (now2 : Nat) (method2 : String) (context2 : Option Dict),
      (captureSuccess cfg now2 endpoint method2 context2
          (captureSuccess cfg (t0 + d1) endpoint method context s).1).2 = []) ∧
    (captureSuccess cfg (t0 + d2) endpoint method context s).2 = [] ∧
    (captureSuccess cfg (t0 + d2) endpoint method context s).1.recentErrors = s.recentErrors ∧
    (captureSuccess cfg (t0 + d2) endpoint method context s).1.recentSuccesses =
      aput s.recentSuccesses (generateSuccessFingerprint cfg endpoint) (t0 + d2) := by
  have hlt : t0 + d1 - t0 < 3600 := by omega
  have hge : ¬ (t0 + d2 - t0 < 3600) := by omega
  have hfull : captureSuccess cfg (t0 + d1) endpoint method context s =
      ((⟨s.queueItems, s.queueMaxsize,
          adel s.recentErrors (generateSuccessFingerprint cfg endpoint),
          aput s.recentSuccesses (generateSuccessFingerprint cfg endpoint) (t0 + d1)⟩ :
            CollectorState),
       [TransportCall.sendSuccessSignal (generateSuccessFingerprint cfg endpoint)
         (aupdate [("endpoint", endpoint), ("method", method), ("last_error_time", timeStr t0)]
           (context.getD []))]) := by
    simp only [captureSuccess, herr]
    rw [if_pos hlt]
  have hmiss : captureSuccess cfg (t0 + d2) endpoint method context s =
      ((⟨s.queueItems, s.queueMaxsize, s.recentErrors,
          aput s.recentSuccesses (generateSuccessFingerprint cfg endpoint) (t0 + d2)⟩ :
            CollectorState),
       []) := by
    simp only [captureSuccess, herr]
    rw [if_neg hge]
  refine ⟨?_, ?_, ?_, ?_, ?_, ?_⟩
  · rw [hfull]
  · rw [hfull]
    exact aget_adel_self s.recentErrors _
  · intro now2 method2 context2
    rw [hfull]
    simp [captureSuccess, aget_adel_self]
  · rw [hmiss]
  · rw [hmiss]
  · rw [hmiss]

theorem C2_auto_resolution_signals_once_witness :
    (captureSuccess sampleConfig 1 "/api" "GET" none sampleFailState).2 =
      [TransportCall.sendSuccessSignal (generateSuccessFingerprint sampleConfig "/api")
        (aupdate [("endpoint", "/api"), ("method", "GET"), ("last_error_time", timeStr 0)] [])] ∧
    (captureSuccess sampleConfig 3600 "/api" "GET" none sampleFailState).2 = [] :=
  have h := C2_auto_resolution_signals_once sampleConfig "/api" "GET" none sampleFailState
    0 1 3600 (aget_cons_of_pos (beq_self_eq_true _)) (by decide) (by decide)
  ⟨h.1, h.2.2.2.1⟩

/-- Claim C5: for a buffer of capacity `N` with no concurrent drain, the first
`N` capture calls (exceptions or messages, in any mix) each enqueue their
event and return a non-null event id, and the `(N+1)`-th call drops exactly
that one event and returns a null id — the final queue holds exactly the
first `N` events. (The embedding is total: the `queue.Full` exception is
caught inside `capture_*`, so no exception reaches the caller.) -/
theorem C5_queue_drop_on_overflow (cfg : Config) (inputs : List CaptureInput)
    (x : CaptureInput) (s0 : CollectorState) (hempty : s0.queueItems = [])
    (hlen : inputs.length = s0.queueMaxsize) :
    (runCaptures cfg (inputs ++ [x]) s0).1 =
      inputs.map (fun ci => some (captureInputId ci)) ++ [none] ∧
    (runCaptures cfg (inputs ++ [x]) s0).2.queueItems =
      inputs.map (captureInputEvent cfg) := by
  obtain ⟨h1, h2, h3⟩ := runCaptures_within_capacity cfg inputs s0 (by simp [hempty, hlen])
  have hfull : ¬ (runCaptures cfg inputs s0).2.queueItems.length <
      (runCaptures cfg inputs s0).2.queueMaxsize := by
    rw [h2, h3, hempty, List.nil_append, List.length_map, hlen]
    omega
  obtain ⟨g1, g2, _g3⟩ := (applyCapture_spec cfg x (runCaptures cfg inputs s0).2).2 hfull
  rw [runCaptures_append cfg inputs [x] s0]
  constructor
  · show (runCaptures cfg inputs s0).1 ++
        [(applyCapture cfg x (runCaptures cfg inputs s0).2).1] =
      inputs.map (fun ci => some (captureInputId ci)) ++ [none]
    rw [h1, g1]
  · show (applyCapture cfg x (runCaptures cfg inputs s0).2).2.1.queueItems =
      inputs.map (captureInputEvent cfg)
    rw [g2, h2, hempty, List.nil_append]

theorem C5_queue_drop_on_overflow_witness :
    (⟨[], 1, [], []⟩ : CollectorState).queueItems = [] ∧
    ([CaptureInput.msg sampleMsgInput] : List CaptureInput).length =
      (⟨[], 1, [], []⟩ : CollectorState).queueMaxsize ∧
    (runCaptures sampleConfig
        ([CaptureInput.msg sampleMsgInput] ++ [CaptureInput.msg sampleMsgInput2])
        ⟨[], 1, [], []⟩).1 =
      [CaptureInput.msg sampleMsgInput].map (fun ci => some (captureInputId ci)) ++ [none] :=
  ⟨rfl, rfl,
    (C5_queue_drop_on_overflow sampleConfig [CaptureInput.msg sampleMsgInput]
      (CaptureInput.msg sampleMsgInput2) ⟨[], 1, [], []⟩ rfl rfl).1⟩

/-- Claim C6 (counterexample): the claim that no `capture_*` call ever invokes
the Transport from the caller's path is false — `capture_success` calls
`Transport.send_success_signal` synchronously when a recent failure entry
matches its fingerprint. -/
theorem C6_capture_success_calls_transport :
    (captureSuccess sampleConfig 1 "/api" "GET" none sampleFailState).2 ≠ [] := by
  have herr : aget sampleFailState.recentErrors
      (generateSuccessFingerprint sampleConfig "/api") = some 0 :=
    aget_cons_of_pos (beq_self_eq_true _)
  simp only [captureSuccess, herr]
  rw [if_pos (by decide)]
  simp

/-- Claim C6 (amended): `capture_exception` and `capture_message` never invoke
the Transport from the caller's path — their effects are limited to the queue
insert and tracker updates; `capture_success`, however, synchronously invokes
`Transport.send_success_signal` from the caller's path, exactly when a failure
for its success fingerprint was recorded within the last hour. Batch sends
happen only on the worker/flush paths. -/
theorem C6_transport_calls_from_capture_paths (cfg : Config) (now : Nat)
    (eventId : String) (exception : PyException) (stackTrace : String)
    (context : Option Dict) (kwargs : Dict) (timestamp : String) (inp : MessageInput)
    (endpoint method : String) (s : CollectorState) :
    (captureException cfg now eventId exception stackTrace context kwargs
      timestamp s).2.2 = [] ∧
    (captureMessage cfg inp s).2.2 = [] ∧
    ((captureSuccess cfg now endpoint method context s).2 ≠ [] ↔
      ∃ t, aget s.recentErrors (generateSuccessFingerprint cfg endpoint) = some t ∧
        now - t < 3600) := by
  refine ⟨?_, ?_, ?_⟩
  · by_cases h : s.queueItems.length < s.queueMaxsize <;> simp [captureException, h]
  · by_cases h : s.queueItems.length < s.queueMaxsize <;> simp [captureMessage, h]
  · cases hm : aget s.recentErrors (generateSuccessFingerprint cfg endpoint) with
    | none => simp [captureSuccess, hm]
    | some t =>
      by_cases ht : now - t < 3600
      · simp [captureSuccess, hm, ht]
      · simp [captureSuccess, hm, ht]

/-- Claim C7: after enqueueing `K < capacity` events, `flush` leaves the queue
empty and hands every previously enqueued event to the Transport's batch send
— here in a single `send_events` call carrying the whole drained queue. -/
theorem C7_flush_drains_all_enqueued (cfg : Config) (timeout : Nat)
    (inputs : List CaptureInput) (s0 : CollectorState)
    (hempty : s0.queueItems = []) (hcap : inputs.length < s0.queueMaxsize) :
    (flush timeout (runCaptures cfg inputs s0).2).1.queueItems = [] ∧
    (inputs ≠ [] →
      (flush timeout (runCaptures cfg inputs s0).2).2 =
        [TransportCall.sendEvents (inputs.map (captureInputEvent cfg))]) ∧
    (∀ ci ∈ inputs, ∃ batch,
      TransportCall.sendEvents batch ∈ (flush timeout (runCaptures cfg inputs s0).2).2 ∧
      captureInputEvent cfg ci ∈ batch) := by
  obtain ⟨h1, h2, h3⟩ := runCaptures_within_capacity cfg inputs s0
    (by simp [hempty]; omega)
  have hqi : (runCaptures cfg inputs s0).2.queueItems =
      inputs.map (captureInputEvent cfg) := by
    rw [h2, hempty, List.nil_append]
  have key : inputs ≠ [] → (flush timeout (runCaptures cfg inputs s0).2).2 =
      [TransportCall.sendEvents (inputs.map (captureInputEvent cfg))] := by
    intro hne
    have hie : (inputs.map (captureInputEvent cfg)).isEmpty = false := by
      cases inputs with
      | nil => exact absurd rfl hne
      | cons a l => rfl
    simp [flush, hqi, hie]
  refine ⟨by simp [flush], key, ?_⟩
  intro ci hci
  have hne : inputs ≠ [] := by
    intro hh
    rw [hh] at hci
    simp at hci
  rw [key hne]
  exact ⟨inputs.map (captureInputEvent cfg), by simp, List.mem_map_of_mem _ hci⟩

theorem C7_flush_drains_all_enqueued_witness :
    (⟨[], 2, [], []⟩ : CollectorState).queueItems = [] ∧
    ([CaptureInput.msg sampleMsgInput] : List CaptureInput).length <
      (⟨[], 2, [], []⟩ : CollectorState).queueMaxsize ∧
    (flush 5 (runCaptures sampleConfig [CaptureInput.msg sampleMsgInput]
      ⟨[], 2, [], []⟩).2).1.queueItems = [] ∧
    (flush 5 (runCaptures sampleConfig [CaptureInput.msg sampleMsgInput]
      ⟨[], 2, [], []⟩).2).2 =
      [TransportCall.sendEvents
        ([CaptureInput.msg sampleMsgInput].map (captureInputEvent sampleConfig))] :=
  have h := C7_flush_drains_all_enqueued sampleConfig 5 [CaptureInput.msg sampleMsgInput]
    ⟨[], 2, [], []⟩ rfl (by decide)
  ⟨rfl, by decide, h.1, h.2.1 (List.cons_ne_nil _ _)⟩

/-- Claim C8 (counterexample): the claim that identity fields
(`event_id`/`timestamp`/`type`) keep their creation values is false — a
caller-supplied `context` key overwrites them, since `dict.update` replaces
existing keys: a message event built with `context = {type: "custom"}` carries
`type = "custom"`, not the generated `"message"`. -/
theorem C8_identity_fields_overwritten :
    aget (buildMessageEvent sampleConfig
        ⟨"id-1", "ts-1", "hello", "info", some [("type", "custom")], []⟩) "type" =
      some "custom" ∧ ("custom" : String) ≠ "message" := by
  constructor
  · rfl
  · decide

/-- Claim C8 (amended): in both `capture_message` and `capture_exception`
events, kwargs keys take precedence over `context` keys; caller-supplied
`context`/`kwargs` CAN replace the identity fields
`event_id`/`timestamp`/`type` (later `dict.update` calls overwrite) — when
neither supplies such a key the identity fields keep the values generated at
creation (`type` being `"message"` resp. `"error"`); the returned event id is
always the generated one, which equals the event's `event_id` field exactly
when that key is not shadowed. -/
theorem C8_merge_precedence_and_shadowing (cfg : Config) (inp : MessageInput)
    (k v : String) (now : Nat) (eventId timestamp stackTrace : String)
    (exception : PyException) (context : Option Dict) (kwargs : Dict)
    (hnodup : (inp.kwargs.map Prod.fst).Nodup)
    (hnodupE : (kwargs.map Prod.fst).Nodup) :
    (aget inp.kwargs k = some v → aget (buildMessageEvent cfg inp) k = some v) ∧
    (hasKey (inp.context.getD []) "event_id" = false → hasKey inp.kwargs "event_id" = false →
      aget (buildMessageEvent cfg inp) "event_id" = some inp.eventId) ∧
    (hasKey (inp.context.getD []) "timestamp" = false → hasKey inp.kwargs "timestamp" = false →
      aget (buildMessageEvent cfg inp) "timestamp" = some inp.timestamp) ∧
    (hasKey (inp.context.getD []) "type" = false → hasKey inp.kwargs "type" = false →
      aget (buildMessageEvent cfg inp) "type" = some "message") ∧
    (∀ s : CollectorState, s.queueItems.length < s.queueMaxsize →
      (captureMessage cfg inp s).1 = some inp.eventId) ∧
    (aget kwargs k = some v →
      aget (buildErrorEvent cfg eventId timestamp exception stackTrace context kwargs) k =
        some v) ∧
    (hasKey (context.getD []) "event_id" = false → hasKey kwargs "event_id" = false →
      aget (buildErrorEvent cfg eventId timestamp exception stackTrace context kwargs)
        "event_id" = some eventId) ∧
    (hasKey (context.getD []) "timestamp" = false → hasKey kwargs "timestamp" = false →
      aget (buildErrorEvent cfg eventId timestamp exception stackTrace context kwargs)
        "timestamp" = some timestamp) ∧
    (hasKey (context.getD []) "type" = false → hasKey kwargs "type" = false →
      aget (buildErrorEvent cfg eventId timestamp exception stackTrace context kwargs)
        "type" = some "error") ∧
    (∀ s : CollectorState, s.queueItems.length < s.queueMaxsize →
      (captureException cfg now eventId exception stackTrace context kwargs timestamp s).1 =
        some eventId) := by
  have hbase : ∀ (key : String) (w : String),
      hasKey (inp.context.getD []) key = false → hasKey inp.kwargs key = false →
      aget [("event_id", inp.eventId), ("timestamp", inp.timestamp), ("type", "message"),
            ("level", inp.level), ("message", inp.message),
            ("environment", cfg.environment), ("project_id", cfg.projectId)] key = some w →
      aget (buildMessageEvent cfg inp) key = some w := by
    intro key w hc hk hget
    have hk2 : inp.kwargs.any (fun p => p.1 == key) = false := hk
    have hc2 : (inp.context.getD []).any (fun p => p.1 == key) = false := hc
    simp only [buildMessageEvent]
    rw [aget_aupdate_of_not_mem inp.kwargs _ hk2,
      aget_aupdate_of_not_mem (inp.context.getD []) _ hc2]
    exact hget
  have hbaseE : ∀ (key : String) (w : String),
      hasKey (context.getD []) key = false → hasKey kwargs key = false →
      aget [("event_id", eventId), ("timestamp", timestamp), ("type", "error"),
            ("exception_type", exception.typeName), ("message", exception.message),
            ("stack_trace", stackTrace),
            ("fingerprint", generateFingerprint exception context),
            ("environment", cfg.environment), ("project_id", cfg.projectId)] key = some w →
      aget (buildErrorEvent cfg eventId timestamp exception stackTrace context kwargs) key =
        some w := by
    intro key w hc hk hget
    have hk2 : kwargs.any (fun p => p.1 == key) = false := hk
    have hc2 : (context.getD []).any (fun p => p.1 == key) = false := hc
    simp only [buildErrorEvent]
    rw [aget_aupdate_of_not_mem kwargs _ hk2,
      aget_aupdate_of_not_mem (context.getD []) _ hc2]
    exact hget
  refine ⟨?_, ?_, ?_, ?_, ?_, ?_, ?_, ?_, ?_, ?_⟩
  · intro h
    simp only [buildMessageEvent]
    exact aget_aupdate_of_mem_nodup inp.kwargs _ hnodup h
  · intro hc hk
    exact hbase "event_id" inp.eventId hc hk rfl
  · intro hc hk
    exact hbase "timestamp" inp.timestamp hc hk rfl
  · intro hc hk
    exact hbase "type" "message" hc hk rfl
  · intro s hs
    simp [captureMessage, hs]
  · intro h
    simp only [buildErrorEvent]
    exact aget_aupdate_of_mem_nodup kwargs _ hnodupE h
  · intro hc hk
    exact hbaseE "event_id" eventId hc hk rfl
  · intro hc hk
    exact hbaseE "timestamp" timestamp hc hk rfl
  · intro hc hk
    exact hbaseE "type" "error" hc hk rfl
  · intro s hs
    simp [captureException, hs]

theorem C8_merge_precedence_and_shadowing_witness :
    ((([("k", "v")] : Dict).map Prod.fst).Nodup) ∧
    aget (buildMessageEvent sampleConfig
      ⟨"id-1", "ts-1", "hello", "info", some [("extra_key", "1")], [("k", "v")]⟩) "k" =
      some "v" ∧
    aget (buildMessageEvent sampleConfig
      ⟨"id-1", "ts-1", "hello", "info", some [("extra_key", "1")], [("k", "v")]⟩) "event_id" =
      some "id-1" ∧
    aget (buildErrorEvent sampleConfig "id-3" "ts-3" ⟨"ValueError", "boom"⟩ "tb"
      (some [("extra_key", "1")]) [("k", "v")]) "k" = some "v" ∧
    aget (buildErrorEvent sampleConfig "id-3" "ts-3" ⟨"ValueError", "boom"⟩ "tb"
      (some [("extra_key", "1")]) [("k", "v")]) "event_id" = some "id-3" ∧
    aget (buildErrorEvent sampleConfig "id-3" "ts-3" ⟨"ValueError", "boom"⟩ "tb"
      (some [("extra_key", "1")]) [("k", "v")]) "type" = some "error" :=
  have h := C8_merge_precedence_and_shadowing sampleConfig
    ⟨"id-1", "ts-1", "hello", "info", some [("extra_key", "1")], [("k", "v")]⟩ "k" "v"
    7 "id-3" "ts-3" "tb" ⟨"ValueError", "boom"⟩ (some [("extra_key", "1")]) [("k", "v")]
    (by simp) (by simp)
  ⟨by simp, h.1 rfl, h.2.1 rfl rfl, h.2.2.2.2.2.1 rfl,
    h.2.2.2.2.2.2.1 rfl rfl, h.2.2.2.2.2.2.2.2.1 rfl rfl⟩

/-- Claim C9 (counterexample): the claim that every captured event is enriched
with the ambient Context is false — with ambient tags set (`get_context()`
returns a non-empty `tags` component), the event built by `capture_message`
contains no `tags`, `user`, or `breadcrumbs` fields at all: the capture path
never reads the ambient Context. -/
theorem C9_ambient_context_not_merged :
    (getContext (setTag emptyAmbient "tenant" "acme")).1 = [("tenant", "acme")] ∧
    aget ((captureMessage sampleConfig sampleMsgInput
        ⟨[], 1000, [], []⟩).2.1.queueItems.getD 0 []) "tags" = none ∧
    aget ((captureMessage sampleConfig sampleMsgInput
        ⟨[], 1000, [], []⟩).2.1.queueItems.getD 0 []) "user" = none ∧
    aget ((captureMessage sampleConfig sampleMsgInput
        ⟨[], 1000, [], []⟩).2.1.queueItems.getD 0 []) "breadcrumbs" = none := by
  refine ⟨rfl, ?_, ?_, ?_⟩ <;> rfl

/-- Claim C9 (amended): `get_context()` exposes the stored
tags/extra/user/breadcrumbs, but events produced by
`capture_message`/`capture_exception` are built solely from the identity and
configuration fields, the caller's `context` dict, and `kwargs` — every key
present in an event comes from one of those sources, never from the ambient
Context. -/
theorem C9_event_keys_come_from_caller_only (cfg : Config) (inp : MessageInput)
    (c : AmbientContext) (k : String) (eventId timestamp stackTrace : String)
    (exception : PyException) (context : Option Dict) (kwargs : Dict)
    (hk : aget (buildMessageEvent cfg inp) k ≠ none) :
    getContext c = (c.tags, c.extra, c.user, c.breadcrumbs) ∧
    (k = "event_id" ∨ k = "timestamp" ∨ k = "type" ∨ k = "level" ∨ k = "message" ∨
      k = "environment" ∨ k = "project_id" ∨
      hasKey (inp.context.getD []) k = true ∨ hasKey inp.kwargs k = true) ∧
    (∀ k2 : String,
      aget (buildErrorEvent cfg eventId timestamp exception stackTrace context kwargs) k2 ≠
        none →
      k2 = "event_id" ∨ k2 = "timestamp" ∨ k2 = "type" ∨ k2 = "exception_type" ∨
      k2 = "message" ∨ k2 = "stack_trace" ∨ k2 = "fingerprint" ∨ k2 = "environment" ∨
      k2 = "project_id" ∨ hasKey (context.getD []) k2 = true ∨ hasKey kwargs k2 = true) := by
  refine ⟨rfl, ?_, ?_⟩
  · have hp := aget_double_update_provenance _ _ _ k (by
      simpa only [buildMessageEvent] using hk)
    rcases hp with hb | hc | hkw
    · simp only [hasKey, List.any_cons, List.any_nil, Bool.or_false, Bool.or_eq_true,
        beq_iff_eq] at hb
      rcases hb with h | h | h | h | h | h | h
      · exact Or.inl h.symm
      · exact Or.inr (Or.inl h.symm)
      · exact Or.inr (Or.inr (Or.inl h.symm))
      · exact Or.inr (Or.inr (Or.inr (Or.inl h.symm)))
      · exact Or.inr (Or.inr (Or.inr (Or.inr (Or.inl h.symm))))
      · exact Or.inr (Or.inr (Or.inr (Or.inr (Or.inr (Or.inl h.symm)))))
      · exact Or.inr (Or.inr (Or.inr (Or.inr (Or.inr (Or.inr (Or.inl h.symm))))))
    · exact Or.inr (Or.inr (Or.inr (Or.inr (Or.inr (Or.inr (Or.inr (Or.inl hc)))))))
    · exact Or.inr (Or.inr (Or.inr (Or.inr (Or.inr (Or.inr (Or.inr (Or.inr hkw)))))))
  · intro k2 hk2
    have hp := aget_double_update_provenance _ _ _ k2 (by
      simpa only [buildErrorEvent] using hk2)
    rcases hp with hb | hc | hkw
    · simp only [hasKey, List.any_cons, List.any_nil, Bool.or_false, Bool.or_eq_true,
        beq_iff_eq] at hb
      rcases hb with h | h | h | h | h | h | h | h | h
      · exact Or.inl h.symm
      · exact Or.inr (Or.inl h.symm)
      · exact Or.inr (Or.inr (Or.inl h.symm))
      · exact Or.inr (Or.inr (Or.inr (Or.inl h.symm)))
      · exact Or.inr (Or.inr (Or.inr (Or.inr (Or.inl h.symm))))
      · exact Or.inr (Or.inr (Or.inr (Or.inr (Or.inr (Or.inl h.symm)))))
      · exact Or.inr (Or.inr (Or.inr (Or.inr (Or.inr (Or.inr (Or.inl h.symm))))))
      · exact Or.inr (Or.inr (Or.inr (Or.inr (Or.inr (Or.inr (Or.inr (Or.inl h.symm)))))))
      · exact Or.inr (Or.inr (Or.inr (Or.inr (Or.inr (Or.inr (Or.inr (Or.inr (Or.inl
          h.symm))))))))
    · exact Or.inr (Or.inr (Or.inr (Or.inr (Or.inr (Or.inr (Or.inr (Or.inr (Or.inr (Or.inl
        hc)))))))))
    · exact Or.inr (Or.inr (Or.inr (Or.inr (Or.inr (Or.inr (Or.inr (Or.inr (Or.inr (Or.inr
        hkw)))))))))

theorem C9_event_keys_come_from_caller_only_witness :
    aget (buildMessageEvent sampleConfig sampleMsgInput) "level" ≠ none ∧
    ("level" = "event_id" ∨ "level" = "timestamp" ∨ "level" = "type" ∨ "level" = "level" ∨
      "level" = "message" ∨ "level" = "environment" ∨ "level" = "project_id" ∨
      hasKey ((sampleMsgInput).context.getD []) "level" = true ∨
      hasKey (sampleMsgInput).kwargs "level" = true) :=
  ⟨by decide,
    (C9_event_keys_come_from_caller_only sampleConfig sampleMsgInput emptyAmbient "level"
      "id-1" "ts-1" "tb" ⟨"ValueError", "boom"⟩ none [] (by decide)).2.1⟩

theorem C10_failure_tracker_survives_queue_drop_witness :
    (⟨[], 0, [], []⟩ : CollectorState).queueMaxsize ≤
      (⟨[], 0, [], []⟩ : CollectorState).queueItems.length ∧
    aget (captureException sampleConfig 7 "id-1" ⟨"ValueError", "boom"⟩ "tb" none [] "ts-1"
        ⟨[], 0, [], []⟩).2.1.recentErrors (generateFingerprint ⟨"ValueError", "boom"⟩ none) =
      some 7 ∧
    (captureException sampleConfig 7 "id-1" ⟨"ValueError", "boom"⟩ "tb" none [] "ts-1"
        ⟨[], 0, [], []⟩).1 = none :=
  have h := C10_failure_tracker_survives_queue_drop sampleConfig 7 "id-1"
    ⟨"ValueError", "boom"⟩ "tb" none [] "ts-1" ⟨[], 0, [], []⟩
  ⟨by decide, h.1, (h.2 (by decide)).1⟩

end RootSense
